import Mathlib

/-!
Verification of the RustyStore persistence layer (`src/storage.rs`,
`src/manager.rs`) against its specification.

The embedding models the file system as an association list from path
strings to content strings, together with boolean oracles deciding which
OS calls fail (open with a non-NotFound error, read, write, directory
creation).  The RON codec is abstract: a `StoringSpec` packages the
category (`store_type`), the default value and the two pretty-printer
configurations used by the source (`store_default` uses
`PrettyConfig::new()`, `write` uses `PrettyConfig::new().compact_arrays(true)`)
as well as the decoder.  Paths (`PathBuf`) are modelled as strings with
Unix `push` semantics: pushing an absolute path replaces the whole path.

`Storage::open_file` in the source recurses after bootstrapping a default
file; the embedding uses an explicit fuel parameter (`open_fileN`) and it
is proved below that fuel 2 always suffices, which is exactly the
"at most two open attempts" property of the specification.
-/

set_option autoImplicit false

namespace RustyStore

/-- Error kinds of `StoreError` in `src/storage.rs` (payloads dropped). -/
inductive StoreError where
  | RonParse
  | Ron
  | FileOpen
  | Read
  | CreateDir
  | Write
deriving DecidableEq, Repr

/-- Storage categories, `StoringType` in `src/storage.rs`. -/
inductive StoringType where
  | Cache
  | Data
  | Config
deriving DecidableEq, Repr

/-- The `Storing` trait bundle for a value type `V`: its category, the
`Default` instance, the two RON encoders actually used by the source
(`store_default` and `write` use different `PrettyConfig`s) and the RON
decoder.  Encoding and decoding may fail (`Ron` / `RonParse` errors),
hence the `Option` results. -/
structure StoringSpec (V : Type) where
  store_type : StoringType
  default : V
  encodeDefaultCfg : V → Option String
  encodeWriteCfg : V → Option String
  decode : String → Option V

/-- `StoreHandle<T>` from `src/storage.rs`: an identifier paired with the
in-memory value. -/
structure StoreHandle (V : Type) where
  store_id : String
  store : V
deriving Repr

/-- `StoreHandle::new`: default value, caller-chosen identifier. -/
def StoreHandle.new {V : Type} (spec : StoringSpec V) (store_id : String) : StoreHandle V :=
  { store := spec.default, store_id := store_id }

/-- `StoreHandle::set_store` (private, used only by `Storage::read`). -/
def StoreHandle.set_store {V : Type} (h : StoreHandle V) (store : V) : StoreHandle V :=
  { h with store := store }

/-- `StoreHandle::get_store`. -/
def StoreHandle.get_store {V : Type} (h : StoreHandle V) : V :=
  h.store

/-- File system plus OS-failure oracles.  `files` maps a path to the file
content; a path not present means the file does not exist (`NotFound` on
open).  `openFailP p` means opening `p` fails with a non-NotFound error,
`readFailP` / `writeFailP` that reading / writing the opened file (or
`fs::write`) fails, `dirFailP d` that `create_dir_all d` fails. -/
structure World where
  files : List (String × String)
  openFailP : String → Bool
  readFailP : String → Bool
  writeFailP : String → Bool
  dirFailP : String → Bool

/-- Look up the content of a file, first match wins. -/
def findFile : List (String × String) → String → Option String
  | [], _ => none
  | (q, d) :: fs, p => if q = p then some d else findFile fs p

/-- Replace the content stored at a path, appending the entry when the
path is absent (the semantics of writing through an opened file or of
`fs::write`). -/
def setFile : List (String × String) → String → String → List (String × String)
  | [], p, c => [(p, c)]
  | (q, d) :: fs, p, c => if q = p then (p, c) :: fs else (q, d) :: setFile fs p c

/-- Rust `Path::is_absolute` on Unix: the path begins with a separator. -/
def isAbsolute (s : String) : Bool :=
  match s.data with
  | [] => false
  | c :: _ => c = '/'

/-- Unix `PathBuf::push` on strings: pushing an absolute path replaces
the current path, otherwise a separator and the component are appended. -/
def pushPath (dir : String) (s : String) : String :=
  if isAbsolute s then s else dir ++ "/" ++ s

/-- Character count of a string (the source counts bytes; the two agree
on ASCII content, which is all the model uses). -/
def strLen (s : String) : Nat :=
  s.data.length

/-- Drop the first `n` characters of a string. -/
def strDrop (s : String) (n : Nat) : String :=
  String.mk (s.data.drop n)

/-- Rust `Path::parent` on the string model: `""` and `"/"` have no
parent; otherwise everything up to (excluding) the last separator.  A
single relative component has parent `""`. -/
def parentDir (p : String) : Option String :=
  if p = "" || p = "/" then none
  else some (((p.toList.reverse.dropWhile (fun c => c ≠ '/')).drop 1).reverse.asString)

/-- `Storage` from `src/storage.rs`: the three category roots. -/
structure Storage where
  cache_dir : String
  data_dir : String
  config_dir : String

/-- `Storage::from`: explicit roots, no platform lookup. -/
def Storage.fromDirs (cache_dir data_dir config_dir : String) : Storage :=
  { cache_dir := cache_dir, data_dir := data_dir, config_dir := config_dir }

/-- `Storage::dir_path::<T>`: select the root for `T::store_type()`. -/
def Storage.dir_path (st : Storage) (t : StoringType) : String :=
  match t with
  | .Cache => st.cache_dir
  | .Data => st.data_dir
  | .Config => st.config_dir

/-- The path computed at the start of `Storage::open_file`:
`dir_path::<T>()` followed by `push(handle.store_id())`. -/
def Storage.file_path {V : Type} (st : Storage) (spec : StoringSpec V) (store_id : String) :
    String :=
  pushPath (st.dir_path spec.store_type) store_id

/-- `Storage::store_default::<T>`: create the parent directory tree, RON
encode `T::default()` with `PrettyConfig::new()` and `fs::write` it to
`path`.  Any failure aborts with the corresponding error and leaves the
tracked file map unchanged. -/
def store_default {V : Type} (spec : StoringSpec V) (w : World) (path : String) :
    Except StoreError World :=
  if (parentDir path).any w.dirFailP then .error .CreateDir
  else
    match spec.encodeDefaultCfg spec.default with
    | none => .error .Ron
    | some str =>
      if w.writeFailP path then .error .Write
      else .ok { w with files := setFile w.files path str }

/-- The type of the `operation` closure passed to `Storage::open_file`:
it receives the world (for the failure oracles), the path, the current
file content and the handle, and returns the new file content, the new
handle and an optional error. -/
def FileOp (V : Type) : Type :=
  World → String → String → StoreHandle V → String × StoreHandle V × Option StoreError

/-- `Storage::open_file` with explicit fuel counting open attempts
(`none` = fuel exhausted).  Mirrors the source: open without create; on
success run the operation and store the content it produced; on NotFound
bootstrap the default store and recurse; on any other open error fail
with `FileOpen`.  A `store_default` failure is surfaced immediately. -/
def Storage.open_fileN {V : Type} (st : Storage) (spec : StoringSpec V) (op : FileOp V) :
    Nat → World → StoreHandle V → Option (World × StoreHandle V × Option StoreError)
  | 0, _, _ => none
  | n + 1, w, h =>
    let path := st.file_path spec h.store_id
    if w.openFailP path then some (w, h, some .FileOpen)
    else
      match findFile w.files path with
      | some content =>
        let r := op w path content h
        some ({ w with files := setFile w.files path r.1 }, r.2.1, r.2.2)
      | none =>
        match store_default spec w path with
        | .error e => some (w, h, some e)
        | .ok w' => st.open_fileN spec op n w' h

/-- `Storage::open_file`: the fuel-free entry point.  Fuel 2 always
suffices (proved below); the fallback value is unreachable. -/
def Storage.open_file {V : Type} (st : Storage) (spec : StoringSpec V) (op : FileOp V)
    (w : World) (h : StoreHandle V) : World × StoreHandle V × Option StoreError :=
  (st.open_fileN spec op 2 w h).getD (w, h, some .FileOpen)

/-- The closure of `Storage::read`: read the full text (may fail with
`Read`), RON parse it (may fail with `RonParse`), and only on success
`set_store` the decoded value.  The file content is left unchanged. -/
def readOp {V : Type} (spec : StoringSpec V) : FileOp V := fun w path content h =>
  if w.readFailP path then (content, h, some .Read)
  else
    match spec.decode content with
    | none => (content, h, some .RonParse)
    | some store_data => (content, h.set_store store_data, none)

/-- The closure of `Storage::write`: RON encode the handle's value with
the compact-arrays config (may fail with `Ron`), then write the bytes at
the start of the file (may fail with `Write`).  The file was opened with
`truncate(false)`, so bytes of a longer previous content beyond the
encoded length survive. -/
def writeOp {V : Type} (spec : StoringSpec V) : FileOp V := fun w path content h =>
  match spec.encodeWriteCfg h.store with
  | none => (content, h, some .Ron)
  | some str =>
    if w.writeFailP path then (content, h, some .Write)
    else (str ++ strDrop content (strLen str), h, none)

/-- `Storage::read`. -/
def Storage.read {V : Type} (st : Storage) (spec : StoringSpec V) (w : World)
    (h : StoreHandle V) : World × StoreHandle V × Option StoreError :=
  st.open_file spec (readOp spec) w h

/-- `Storage::write`. -/
def Storage.write {V : Type} (st : Storage) (spec : StoringSpec V) (w : World)
    (h : StoreHandle V) : World × StoreHandle V × Option StoreError :=
  st.open_file spec (writeOp spec) w h

/-- `StoreManager<T>` from `src/manager.rs`. -/
structure StoreManager (V : Type) where
  store : Storage
  handle : StoreHandle V

/-- `StoreManager::from_handle`: read into the handle; on failure the
error propagates and no manager is produced. -/
def StoreManager.from_handle {V : Type} (spec : StoringSpec V) (storage : Storage)
    (w : World) (h : StoreHandle V) : World × Except StoreError (StoreManager V) :=
  let r := storage.read spec w h
  match r.2.2 with
  | some e => (r.1, .error e)
  | none => (r.1, .ok { store := storage, handle := r.2.1 })

/-- `StoreManager::new`: build a fresh handle for `store_id`, then as
`from_handle`. -/
def StoreManager.new {V : Type} (spec : StoringSpec V) (storage : Storage) (w : World)
    (store_id : String) : World × Except StoreError (StoreManager V) :=
  StoreManager.from_handle spec storage w (StoreHandle.new spec store_id)

/-- `StoreManager::get_store`. -/
def StoreManager.get_store {V : Type} (m : StoreManager V) : V :=
  m.handle.get_store

/-- `StoreManager::save`: delegate to `storage.write` on the handle. -/
def StoreManager.save {V : Type} (spec : StoringSpec V) (m : StoreManager V) (w : World) :
    World × StoreManager V × Option StoreError :=
  let r := m.store.write spec w m.handle
  (r.1, { m with handle := r.2.1 }, r.2.2)

/-- `StoreManager::modify_store_uncommitted`: apply `change` through
`get_store_mut`; pure in-memory update, no world in or out, total. -/
def StoreManager.modify_store_uncommitted {V : Type} (m : StoreManager V) (change : V → V) :
    StoreManager V :=
  { m with handle := { m.handle with store := change m.handle.store } }

/-- `StoreManager::modify_store`: apply `change` in memory, then
immediately `save`. -/
def StoreManager.modify_store {V : Type} (spec : StoringSpec V) (m : StoreManager V)
    (w : World) (change : V → V) : World × StoreManager V × Option StoreError :=
  StoreManager.save spec { m with handle := { m.handle with store := change m.handle.store } } w

/-- `StoreManager::get_store_alive`: re-read from disk into the handle. -/
def StoreManager.get_store_alive {V : Type} (spec : StoringSpec V) (m : StoreManager V)
    (w : World) : World × StoreManager V × Option StoreError :=
  let r := m.store.read spec w m.handle
  (r.1, { m with handle := r.2.1 }, r.2.2)

/-- Concrete `Storing` instance used for witnesses: a `Data`-category
counter whose codec writes `n` as `n` repetitions of `x` (chosen so that
every codec operation reduces inside the kernel). -/
def CounterSpec : StoringSpec Nat :=
  { store_type := .Data
    default := 0
    encodeDefaultCfg := fun n => some (List.replicate n 'x').asString
    encodeWriteCfg := fun n => some (List.replicate n 'x').asString
    decode := fun s => if s.data.all (fun c => c = 'x') then some s.data.length else none }

/-- A second instance with the same value type but `Config` category. -/
def CounterConfigSpec : StoringSpec Nat :=
  { CounterSpec with store_type := .Config }

/-- Variant instance whose default is nonzero and whose default-config
encoder writes `d` characters while the write-config encoder writes `x`
characters, making the two pretty-printer configurations observably
different (as the source's `PrettyConfig::new()` versus
`PrettyConfig::new().compact_arrays(true)` can be). -/
def CounterDSpec : StoringSpec Nat :=
  { store_type := .Data
    default := 5
    encodeDefaultCfg := fun n => some (List.replicate n 'd').asString
    encodeWriteCfg := fun n => some (List.replicate n 'x').asString
    decode := fun s => if s.data.all (fun c => c = 'x') then some s.data.length else none }

/-- A storage with three pairwise distinct roots. -/
def exStorage : Storage :=
  Storage.fromDirs ("/cache") ("/data") ("/config")

/-- A world whose failure oracles are all false. -/
def calmWorld (files : List (String × String)) : World :=
  { files := files
    openFailP := fun _ => false
    readFailP := fun _ => false
    writeFailP := fun _ => false
    dirFailP := fun _ => false }

/-- A world whose directory-creation oracle fails under the data root. -/
def dirFailWorld : World :=
  { calmWorld [] with dirFailP := fun s => decide (s = ("/data")) }

/-! Helper lemmas about the file-map primitives. -/

theorem findFile_setFile (fs : List (String × String)) (p c : String) :
    findFile (setFile fs p c) p = some c := by
  induction fs with
  | nil => simp [setFile, findFile]
  | cons q fs ih =>
    obtain ⟨q1, q2⟩ := q
    by_cases hq : q1 = p <;> simp [setFile, findFile, hq, ih]

theorem setFile_of_findFile_none {fs : List (String × String)} {p : String}
    (h : findFile fs p = none) (c : String) : setFile fs p c = fs ++ [(p, c)] := by
  induction fs with
  | nil => simp [setFile]
  | cons q fs ih =>
    obtain ⟨q1, q2⟩ := q
    simp only [findFile] at h
    rcases ite_eq_iff.mp h with ⟨_, hc⟩ | ⟨hq, hrec⟩
    · exact absurd hc (by simp)
    · simp [setFile, hq, ih hrec]

theorem setFile_append_self {fs : List (String × String)} {p : String}
    (h : findFile fs p = none) (c : String) :
    setFile (fs ++ [(p, c)]) p c = fs ++ [(p, c)] := by
  induction fs with
  | nil => simp [setFile]
  | cons q fs ih =>
    obtain ⟨q1, q2⟩ := q
    simp only [findFile] at h
    rcases ite_eq_iff.mp h with ⟨_, hc⟩ | ⟨hq, hrec⟩
    · exact absurd hc (by simp)
    · simp [setFile, hq, ih hrec]

theorem findFile_append_self {fs : List (String × String)} {p : String}
    (h : findFile fs p = none) (c : String) :
    findFile (fs ++ [(p, c)]) p = some c := by
  induction fs with
  | nil => simp [findFile]
  | cons q fs ih =>
    obtain ⟨q1, q2⟩ := q
    simp only [findFile] at h
    rcases ite_eq_iff.mp h with ⟨_, hc⟩ | ⟨hq, hrec⟩
    · exact absurd hc (by simp)
    · simp [findFile, hq, ih hrec]

theorem setFile_append_replace {fs : List (String × String)} {p : String}
    (h : findFile fs p = none) (c c' : String) :
    setFile (fs ++ [(p, c)]) p c' = fs ++ [(p, c')] := by
  induction fs with
  | nil => simp [setFile]
  | cons q fs ih =>
    obtain ⟨q1, q2⟩ := q
    simp only [findFile] at h
    rcases ite_eq_iff.mp h with ⟨_, hc⟩ | ⟨hq, hrec⟩
    · exact absurd hc (by simp)
    · simp [setFile, hq, ih hrec]

theorem setFile_of_findFile_some {fs : List (String × String)} {p c : String}
    (h : findFile fs p = some c) : setFile fs p c = fs := by
  induction fs with
  | nil => simp [findFile] at h
  | cons q fs ih =>
    obtain ⟨q1, q2⟩ := q
    simp only [findFile] at h
    by_cases hq : q1 = p
    · simp only [hq, if_pos rfl] at h
      obtain rfl : q2 = c := by exact Option.some.inj h
      simp [setFile, hq]
    · simp only [if_neg hq] at h
      simp [setFile, hq, ih h]

/-! Helper lemmas about `store_default` and `open_file`. -/

theorem store_default_ok {V : Type} {spec : StoringSpec V} {w : World} {path : String}
    {w' : World} (h : store_default spec w path = .ok w') :
    ∃ str, spec.encodeDefaultCfg spec.default = some str ∧
      w' = { w with files := setFile w.files path str } := by
  unfold store_default at h
  split at h
  · exact absurd h (by simp)
  · split at h
    · exact absurd h (by simp)
    · next str hstr =>
      split at h
      · exact absurd h (by simp)
      · exact ⟨str, hstr, (Except.ok.inj h).symm⟩

theorem open_fileN_succ {V : Type} (st : Storage) (spec : StoringSpec V) (op : FileOp V)
    (n : Nat) (w : World) (h : StoreHandle V) :
    st.open_fileN spec op (n + 1) w h =
      (if w.openFailP (st.file_path spec h.store_id) then some (w, h, some .FileOpen)
       else
         match findFile w.files (st.file_path spec h.store_id) with
         | some content =>
           some ({ w with files := (setFile w.files (st.file_path spec h.store_id) (op w (st.file_path spec h.store_id) content h).1) },
                 (op w (st.file_path spec h.store_id) content h).2.1,
                 (op w (st.file_path spec h.store_id) content h).2.2)
         | none =>
           match store_default spec w (st.file_path spec h.store_id) with
           | .error e => some (w, h, some e)
           | .ok w' => st.open_fileN spec op n w' h) := rfl

theorem open_fileN_two_isSome {V : Type} (st : Storage) (spec : StoringSpec V)
    (op : FileOp V) (w : World) (h : StoreHandle V) :
    (st.open_fileN spec op 2 w h).isSome := by
  show (st.open_fileN spec op (1 + 1) w h).isSome
  rw [open_fileN_succ]
  by_cases ho : w.openFailP (st.file_path spec h.store_id)
  · simp [ho]
  · cases hf : findFile w.files (st.file_path spec h.store_id) with
    | some content => simp [ho, hf]
    | none =>
      cases hd : store_default spec w (st.file_path spec h.store_id) with
      | error e => simp [ho, hf, hd]
      | ok w' =>
        obtain ⟨str, henc, rfl⟩ := store_default_ok hd
        simp only [ho, hf, hd, Bool.false_eq_true, if_false]
        rw [show (1 : Nat) = 0 + 1 from rfl, open_fileN_succ]
        simp [ho, findFile_setFile]

theorem open_fileN_stable {V : Type} (st : Storage) (spec : StoringSpec V) (op : FileOp V)
    (n : Nat) (w : World) (h : StoreHandle V) :
    st.open_fileN spec op (n + 2) w h = st.open_fileN spec op 2 w h := by
  show st.open_fileN spec op ((n + 1) + 1) w h = st.open_fileN spec op (1 + 1) w h
  rw [open_fileN_succ, open_fileN_succ]
  by_cases ho : w.openFailP (st.file_path spec h.store_id)
  · simp [ho]
  · cases hf : findFile w.files (st.file_path spec h.store_id) with
    | some content => simp [ho, hf]
    | none =>
      cases hd : store_default spec w (st.file_path spec h.store_id) with
      | error e => simp [ho, hf, hd]
      | ok w' =>
        obtain ⟨str, henc, rfl⟩ := store_default_ok hd
        simp only [ho, hf, hd, Bool.false_eq_true, if_false]
        rw [show (n + 1 : Nat) = n + 1 from rfl,
          show (1 : Nat) = 0 + 1 from rfl, open_fileN_succ, open_fileN_succ]
        simp [ho, findFile_setFile]

theorem open_file_openFail {V : Type} (st : Storage) (spec : StoringSpec V) (op : FileOp V)
    (w : World) (h : StoreHandle V)
    (ho : w.openFailP (st.file_path spec h.store_id) = true) :
    st.open_file spec op w h = (w, h, some .FileOpen) := by
  unfold Storage.open_file
  rw [show (2 : Nat) = 1 + 1 from rfl, open_fileN_succ]
  simp [ho]

theorem open_file_found {V : Type} (st : Storage) (spec : StoringSpec V) (op : FileOp V)
    (w : World) (h : StoreHandle V) (content : String)
    (ho : w.openFailP (st.file_path spec h.store_id) = false)
    (hf : findFile w.files (st.file_path spec h.store_id) = some content) :
    st.open_file spec op w h =
      ({ w with files := (setFile w.files (st.file_path spec h.store_id) (op w (st.file_path spec h.store_id) content h).1) },
       (op w (st.file_path spec h.store_id) content h).2.1,
       (op w (st.file_path spec h.store_id) content h).2.2) := by
  unfold Storage.open_file
  rw [show (2 : Nat) = 1 + 1 from rfl, open_fileN_succ]
  simp [ho, hf]

theorem open_file_bootstrapErr {V : Type} (st : Storage) (spec : StoringSpec V)
    (op : FileOp V) (w : World) (h : StoreHandle V) (e : StoreError)
    (ho : w.openFailP (st.file_path spec h.store_id) = false)
    (hf : findFile w.files (st.file_path spec h.store_id) = none)
    (hd : store_default spec w (st.file_path spec h.store_id) = .error e) :
    st.open_file spec op w h = (w, h, some e) := by
  unfold Storage.open_file
  rw [show (2 : Nat) = 1 + 1 from rfl, open_fileN_succ]
  simp [ho, hf, hd]

theorem open_file_bootstrapOk {V : Type} (st : Storage) (spec : StoringSpec V)
    (op : FileOp V) (w : World) (h : StoreHandle V) (w' : World)
    (ho : w.openFailP (st.file_path spec h.store_id) = false)
    (hf : findFile w.files (st.file_path spec h.store_id) = none)
    (hd : store_default spec w (st.file_path spec h.store_id) = .ok w') :
    ∃ str, spec.encodeDefaultCfg spec.default = some str ∧
      w' = { w with files := setFile w.files (st.file_path spec h.store_id) str } ∧
      st.open_file spec op w h =
        ({ w' with files := (setFile w'.files (st.file_path spec h.store_id) (op w' (st.file_path spec h.store_id) str h).1) },
         (op w' (st.file_path spec h.store_id) str h).2.1,
         (op w' (st.file_path spec h.store_id) str h).2.2) := by
  obtain ⟨str, henc, hw'⟩ := store_default_ok hd
  refine ⟨str, henc, hw', ?_⟩
  unfold Storage.open_file
  rw [show (2 : Nat) = 1 + 1 from rfl, open_fileN_succ]
  simp only [ho, Bool.false_eq_true, if_false, hf, hd]
  rw [show (1 : Nat) = 0 + 1 from rfl, open_fileN_succ]
  have ho' : w'.openFailP (st.file_path spec h.store_id) = false := by rw [hw']; exact ho
  have hf' : findFile w'.files (st.file_path spec h.store_id) = some str := by
    rw [hw']; exact findFile_setFile _ _ _
  simp [ho', hf']

/-! Facts about the two operation closures. -/

theorem writeOp_handle {V : Type} (spec : StoringSpec V) (w : World) (p c : String)
    (h : StoreHandle V) : (writeOp spec w p c h).2.1 = h := by
  unfold writeOp
  cases spec.encodeWriteCfg h.store with
  | none => simp
  | some str => by_cases hw : w.writeFailP p <;> simp [hw]

theorem readOp_handle_of_err {V : Type} (spec : StoringSpec V) (w : World) (p c : String)
    (h : StoreHandle V) (he : ((readOp spec w p c h).2.2).isSome) :
    (readOp spec w p c h).2.1 = h := by
  unfold readOp at *
  by_cases hr : w.readFailP p
  · simp [hr]
  · simp only [hr, Bool.false_eq_true, if_false] at he ⊢
    cases hd : spec.decode c <;> simp [hd] at he ⊢

theorem readOp_store_id {V : Type} (spec : StoringSpec V) (w : World) (p c : String)
    (h : StoreHandle V) : ((readOp spec w p c h).2.1).store_id = h.store_id := by
  unfold readOp
  by_cases hr : w.readFailP p
  · simp [hr]
  · cases hd : spec.decode c <;> simp [hr, hd, StoreHandle.set_store]

/-! Generic preservation lemmas for `open_file`, by case analysis over the
four possible executions. -/

theorem open_file_handle_const {V : Type} (st : Storage) (spec : StoringSpec V)
    (op : FileOp V) (w : World) (h : StoreHandle V)
    (hop : ∀ w' p c h', (op w' p c h').2.1 = h') :
    (st.open_file spec op w h).2.1 = h := by
  by_cases ho : w.openFailP (st.file_path spec h.store_id)
  · rw [open_file_openFail st spec op w h ho]
  · have ho' : w.openFailP (st.file_path spec h.store_id) = false := by simpa using ho
    cases hf : findFile w.files (st.file_path spec h.store_id) with
    | some content => rw [open_file_found st spec op w h content ho' hf]; exact hop _ _ _ _
    | none =>
      cases hd : store_default spec w (st.file_path spec h.store_id) with
      | error e => rw [open_file_bootstrapErr st spec op w h e ho' hf hd]
      | ok w' =>
        obtain ⟨str, henc, hw', heq⟩ := open_file_bootstrapOk st spec op w h w' ho' hf hd
        rw [heq]; exact hop _ _ _ _

theorem open_file_handle_of_err {V : Type} (st : Storage) (spec : StoringSpec V)
    (op : FileOp V) (w : World) (h : StoreHandle V)
    (hop : ∀ w' p c h', ((op w' p c h').2.2).isSome → (op w' p c h').2.1 = h')
    (he : ((st.open_file spec op w h).2.2).isSome) :
    (st.open_file spec op w h).2.1 = h := by
  by_cases ho : w.openFailP (st.file_path spec h.store_id)
  · rw [open_file_openFail st spec op w h ho]
  · have ho' : w.openFailP (st.file_path spec h.store_id) = false := by simpa using ho
    cases hf : findFile w.files (st.file_path spec h.store_id) with
    | some content =>
      rw [open_file_found st spec op w h content ho' hf] at he ⊢
      exact hop _ _ _ _ he
    | none =>
      cases hd : store_default spec w (st.file_path spec h.store_id) with
      | error e => rw [open_file_bootstrapErr st spec op w h e ho' hf hd]
      | ok w' =>
        obtain ⟨str, henc, hw', heq⟩ := open_file_bootstrapOk st spec op w h w' ho' hf hd
        rw [heq] at he ⊢
        exact hop _ _ _ _ he

theorem open_file_store_id {V : Type} (st : Storage) (spec : StoringSpec V)
    (op : FileOp V) (w : World) (h : StoreHandle V)
    (hop : ∀ w' p c h', ((op w' p c h').2.1).store_id = h'.store_id) :
    ((st.open_file spec op w h).2.1).store_id = h.store_id := by
  by_cases ho : w.openFailP (st.file_path spec h.store_id)
  · rw [open_file_openFail st spec op w h ho]
  · have ho' : w.openFailP (st.file_path spec h.store_id) = false := by simpa using ho
    cases hf : findFile w.files (st.file_path spec h.store_id) with
    | some content => rw [open_file_found st spec op w h content ho' hf]; exact hop _ _ _ _
    | none =>
      cases hd : store_default spec w (st.file_path spec h.store_id) with
      | error e => rw [open_file_bootstrapErr st spec op w h e ho' hf hd]
      | ok w' =>
        obtain ⟨str, henc, hw', heq⟩ := open_file_bootstrapOk st spec op w h w' ho' hf hd
        rw [heq]; exact hop _ _ _ _

/-- `Storage::write` never replaces the handle: the operation closure of
`write` only reads `handle.store`. -/
theorem write_handle_eq {V : Type} (st : Storage) (spec : StoringSpec V) (w : World)
    (h : StoreHandle V) : (st.write spec w h).2.1 = h :=
  open_file_handle_const st spec (writeOp spec) w h (fun w' p c h' => writeOp_handle spec w' p c h')

/-- `Storage::read` keeps the handle whenever it fails. -/
theorem read_handle_of_err {V : Type} (st : Storage) (spec : StoringSpec V) (w : World)
    (h : StoreHandle V) (he : ((st.read spec w h).2.2).isSome) :
    (st.read spec w h).2.1 = h :=
  open_file_handle_of_err st spec (readOp spec) w h
    (fun w' p c h' => readOp_handle_of_err spec w' p c h') he

/-- Neither `read` nor `write` ever changes the identifier of a handle. -/
theorem read_store_id {V : Type} (st : Storage) (spec : StoringSpec V) (w : World)
    (h : StoreHandle V) : ((st.read spec w h).2.1).store_id = h.store_id :=
  open_file_store_id st spec (readOp spec) w h
    (fun w' p c h' => readOp_store_id spec w' p c h')

/-- `StoreManager::save` in terms of `Storage::write`: since `write`
keeps the handle, `save` keeps the manager and only threads the world
and the error through. -/
theorem save_eq {V : Type} (spec : StoringSpec V) (m : StoreManager V) (w : World) :
    StoreManager.save spec m w =
      ((m.store.write spec w m.handle).1, m, (m.store.write spec w m.handle).2.2) := by
  unfold StoreManager.save
  simp only [write_handle_eq]

theorem string_append_right_cancel {a b c : String} (h : a ++ c = b ++ c) : a = b := by
  have hd : a.data ++ c.data = b.data ++ c.data := by
    have h2 := congrArg String.data h
    simpa [String.data_append] using h2
  exact String.ext (List.append_cancel_right hd)

/-! The claims. -/

/-- Claim C2 (confirmed): the file-access algorithm of `read`/`write`
makes at most two open attempts: fuel 2 never runs out, any extra fuel
yields the same result (no third attempt ever occurs), and a failure of
the default-store write is surfaced immediately as the overall result. -/
theorem C2_at_most_two_open_attempts {V : Type} (st : Storage) (spec : StoringSpec V)
    (op : FileOp V) (w : World) (h : StoreHandle V) :
    (st.open_fileN spec op 2 w h).isSome ∧
    (∀ n : Nat, st.open_fileN spec op (n + 2) w h = st.open_fileN spec op 2 w h) ∧
    (∀ e : StoreError, w.openFailP (st.file_path spec h.store_id) = false →
      findFile w.files (st.file_path spec h.store_id) = none →
      store_default spec w (st.file_path spec h.store_id) = .error e →
      st.open_file spec op w h = (w, h, some e)) :=
  ⟨open_fileN_two_isSome st spec op w h,
   fun n => open_fileN_stable st spec op n w h,
   fun e ho hf hd => open_file_bootstrapErr st spec op w h e ho hf hd⟩

/-- Witness for C2: a world whose directory creation fails under the
data root makes the bootstrap fail and the failure is surfaced at once. -/
theorem C2_at_most_two_open_attempts_witness :
    dirFailWorld.openFailP (exStorage.file_path CounterSpec ("c")) = false ∧
    findFile dirFailWorld.files (exStorage.file_path CounterSpec ("c")) = none ∧
    store_default CounterSpec dirFailWorld (exStorage.file_path CounterSpec ("c")) =
      .error .CreateDir ∧
    exStorage.open_file CounterSpec (readOp CounterSpec) dirFailWorld
        (StoreHandle.new CounterSpec ("c")) =
      (dirFailWorld, StoreHandle.new CounterSpec ("c"), some .CreateDir) :=
  ⟨rfl, rfl, rfl,
   (C2_at_most_two_open_attempts exStorage CounterSpec (readOp CounterSpec) dirFailWorld
      (StoreHandle.new CounterSpec ("c"))).2.2 .CreateDir rfl rfl rfl⟩

/-- Claim C3 (confirmed): when the file opens but its content does not
decode, `read` returns the `RonParse` error, and both the handle and the
world are returned exactly as they were — the in-memory value is never
partially decoded. -/
theorem C3_decode_failure_preserves_handle {V : Type} (st : Storage) (spec : StoringSpec V)
    (w : World) (h : StoreHandle V) (content : String)
    (ho : w.openFailP (st.file_path spec h.store_id) = false)
    (hf : findFile w.files (st.file_path spec h.store_id) = some content)
    (hr : w.readFailP (st.file_path spec h.store_id) = false)
    (hd : spec.decode content = none) :
    st.read spec w h = (w, h, some .RonParse) := by
  unfold Storage.read
  rw [open_file_found st spec (readOp spec) w h content ho hf]
  unfold readOp
  simp [hr, hd, setFile_of_findFile_some hf]

/-- Witness for C3: content `zzz` does not decode as a counter; the
handle keeps its default value. -/
theorem C3_decode_failure_preserves_handle_witness :
    CounterSpec.decode ("zzz") = none ∧
    exStorage.read CounterSpec (calmWorld [(("/data/c"), ("zzz"))])
        (StoreHandle.new CounterSpec ("c")) =
      (calmWorld [(("/data/c"), ("zzz"))], StoreHandle.new CounterSpec ("c"),
        some .RonParse) :=
  ⟨rfl,
   C3_decode_failure_preserves_handle exStorage CounterSpec
     (calmWorld [(("/data/c"), ("zzz"))]) (StoreHandle.new CounterSpec ("c")) ("zzz")
     rfl rfl rfl rfl⟩

/-- Claim C10 (confirmed): `write` leaves the handle itself unchanged
whether it succeeds or fails — value and identifier both. -/
theorem C10_write_leaves_handle_unchanged {V : Type} (st : Storage) (spec : StoringSpec V)
    (w : World) (h : StoreHandle V) :
    (st.write spec w h).2.1 = h ∧
    ((st.write spec w h).2.1).store = h.store ∧
    ((st.write spec w h).2.1).store_id = h.store_id :=
  ⟨write_handle_eq st spec w h,
   by rw [write_handle_eq], by rw [write_handle_eq]⟩

/-- Counterexample to claim C1: the claim asserts that after a
successful `write` the file's entire content equals the encoded text.
The source opens the file with `truncate(false)` and writes at offset 0,
so over the 5-byte previous content `yyyyy` a 3-byte encoding `xxx`
leaves `xxxyy` — the write succeeds yet the content differs from the
encoded text. -/
theorem C1_counterexample :
    (exStorage.write CounterSpec (calmWorld [(("/data/c"), ("yyyyy"))]) ⟨"c", 3⟩).2.2 =
      none ∧
    CounterSpec.encodeWriteCfg 3 = some ("xxx") ∧
    findFile (exStorage.write CounterSpec (calmWorld [(("/data/c"), ("yyyyy"))])
        ⟨"c", 3⟩).1.files ("/data/c") = some ("xxxyy") ∧
    ("xxxyy" : String) ≠ ("xxx") :=
  ⟨by decide, by decide, by decide, by decide⟩

/-- Claim C1 (amended): after the file-opening step — including the
default-bootstrap-then-retry when the file is missing — `write` encodes
the handle's value and writes the encoded text over the opened file's
bytes starting at offset 0 without truncating: on success the file's
content is the encoded text followed by any bytes beyond the encoded
length of the content the file had when the operation ran — the previous
content when the file existed, or the freshly bootstrapped default
encoding when it did not.  It equals the encoded text exactly only when
that content was not longer.  The handle is returned unchanged. -/
theorem C1_write_overwrites_without_truncation {V : Type} (st : Storage)
    (spec : StoringSpec V) (w : World) (h : StoreHandle V) (str : String)
    (henc : spec.encodeWriteCfg h.store = some str)
    (ho : w.openFailP (st.file_path spec h.store_id) = false)
    (hw : w.writeFailP (st.file_path spec h.store_id) = false) :
    (∀ old, findFile w.files (st.file_path spec h.store_id) = some old →
      st.write spec w h =
        ({ w with files := (setFile w.files (st.file_path spec h.store_id) (str ++ strDrop old (strLen str))) },
         h, none)) ∧
    (∀ d, findFile w.files (st.file_path spec h.store_id) = none →
      (parentDir (st.file_path spec h.store_id)).any w.dirFailP = false →
      spec.encodeDefaultCfg spec.default = some d →
      st.write spec w h =
        ({ w with files := w.files ++ [(st.file_path spec h.store_id, str ++ strDrop d (strLen str))] },
         h, none)) := by
  constructor
  · intro old hf
    unfold Storage.write
    rw [open_file_found st spec (writeOp spec) w h old ho hf]
    unfold writeOp
    simp [henc, hw]
  · intro d hfn hdir hencD
    have hd : store_default spec w (st.file_path spec h.store_id) =
        .ok { w with files := setFile w.files (st.file_path spec h.store_id) d } := by
      unfold store_default
      simp [hdir, hencD, hw]
    obtain ⟨str', henc', hw', heq⟩ :=
      open_file_bootstrapOk st spec (writeOp spec) w h _ ho hfn hd
    rw [hencD] at henc'
    obtain rfl : d = str' := Option.some.inj henc'
    unfold Storage.write
    rw [heq]
    unfold writeOp
    simp [henc, hw, setFile_of_findFile_none hfn, setFile_append_replace hfn]

/-- Witness for the amended C1: the existing-file branch at the
counterexample input (previous content `yyyyy`, result `xxxyy`), and the
bootstrap branch on a missing file whose default encoding `ddddd` is
longer than the written encoding `xxx`, leaving `xxxdd`. -/
theorem C1_write_overwrites_without_truncation_witness :
    CounterSpec.encodeWriteCfg 3 = some ("xxx") ∧
    exStorage.write CounterSpec (calmWorld [(("/data/c"), ("yyyyy"))]) ⟨"c", 3⟩ =
      ({ calmWorld [(("/data/c"), ("yyyyy"))] with
          files := (setFile (calmWorld [(("/data/c"), ("yyyyy"))]).files
            (exStorage.file_path CounterSpec ("c")) (("xxx" : String) ++ strDrop ("yyyyy") (strLen ("xxx")))) },
       (⟨"c", 3⟩ : StoreHandle Nat), none) ∧
    CounterDSpec.encodeDefaultCfg CounterDSpec.default = some ("ddddd") ∧
    exStorage.write CounterDSpec (calmWorld []) ⟨"c", 3⟩ =
      ({ calmWorld [] with
          files := (calmWorld []).files ++ [(exStorage.file_path CounterDSpec ("c"), ("xxx" : String) ++ strDrop ("ddddd") (strLen ("xxx")))] },
       (⟨"c", 3⟩ : StoreHandle Nat), none) := by
  refine ⟨rfl, ?_, rfl, ?_⟩
  · exact (C1_write_overwrites_without_truncation exStorage CounterSpec
      (calmWorld [(("/data/c"), ("yyyyy"))]) ⟨"c", 3⟩ ("xxx") rfl rfl rfl).1 ("yyyyy") rfl
  · exact (C1_write_overwrites_without_truncation exStorage CounterDSpec
      (calmWorld []) ⟨"c", 3⟩ ("xxx") rfl rfl rfl).2 ("ddddd") rfl rfl rfl

/-- Claim C4 (confirmed): reading a handle whose identifier has never
been written (no file, no OS failures, the codec round-trips the
default) creates exactly one file, containing the encoded default, and
sets the handle's value to the default; a second read of the same
identifier returns the same value and leaves the world — in particular
the file — untouched. -/
theorem C4_default_bootstrap_idempotence {V : Type} (st : Storage) (spec : StoringSpec V)
    (w : World) (h : StoreHandle V) (d : String)
    (ho : w.openFailP (st.file_path spec h.store_id) = false)
    (hf : findFile w.files (st.file_path spec h.store_id) = none)
    (hdir : (parentDir (st.file_path spec h.store_id)).any w.dirFailP = false)
    (henc : spec.encodeDefaultCfg spec.default = some d)
    (hwf : w.writeFailP (st.file_path spec h.store_id) = false)
    (hrf : w.readFailP (st.file_path spec h.store_id) = false)
    (hrt : spec.decode d = some spec.default) :
    st.read spec w h =
      ({ w with files := w.files ++ [(st.file_path spec h.store_id, d)] },
        h.set_store spec.default, none) ∧
    st.read spec { w with files := w.files ++ [(st.file_path spec h.store_id, d)] }
        (h.set_store spec.default) =
      ({ w with files := w.files ++ [(st.file_path spec h.store_id, d)] },
        h.set_store spec.default, none) := by
  constructor
  · have hd : store_default spec w (st.file_path spec h.store_id) =
        .ok { w with files := setFile w.files (st.file_path spec h.store_id) d } := by
      unfold store_default
      simp [hdir, henc, hwf]
    obtain ⟨str, henc', hw', heq⟩ :=
      open_file_bootstrapOk st spec (readOp spec) w h _ ho hf hd
    rw [henc] at henc'
    obtain rfl : d = str := Option.some.inj henc'
    unfold Storage.read
    rw [heq]
    unfold readOp
    simp [hrf, hrt, setFile_of_findFile_none hf, setFile_append_self hf,
      StoreHandle.set_store]
  · have hf1 : findFile (w.files ++ [(st.file_path spec h.store_id, d)])
        (st.file_path spec h.store_id) = some d := findFile_append_self hf d
    unfold Storage.read
    rw [open_file_found st spec (readOp spec)
      { w with files := w.files ++ [(st.file_path spec h.store_id, d)] }
      (h.set_store spec.default) d ho hf1]
    unfold readOp
    simp [hrf, hrt, setFile_append_self hf, StoreHandle.set_store]

/-- Witness for C4: identifier `c` on an empty world; the default `0`
encodes to the empty string, which decodes back to `0`. -/
theorem C4_default_bootstrap_idempotence_witness :
    CounterSpec.encodeDefaultCfg CounterSpec.default = some ("") ∧
    CounterSpec.decode ("") = some CounterSpec.default ∧
    exStorage.read CounterSpec (calmWorld []) (StoreHandle.new CounterSpec ("c")) =
      ({ calmWorld [] with
          files := (calmWorld []).files ++ [(exStorage.file_path CounterSpec ("c"), "")] },
        (StoreHandle.new CounterSpec ("c")).set_store CounterSpec.default, none) ∧
    exStorage.read CounterSpec
        { calmWorld [] with
          files := (calmWorld []).files ++ [(exStorage.file_path CounterSpec ("c"), "")] }
        ((StoreHandle.new CounterSpec ("c")).set_store CounterSpec.default) =
      ({ calmWorld [] with
          files := (calmWorld []).files ++ [(exStorage.file_path CounterSpec ("c"), "")] },
        (StoreHandle.new CounterSpec ("c")).set_store CounterSpec.default, none) := by
  have h4 := C4_default_bootstrap_idempotence exStorage CounterSpec (calmWorld [])
    (StoreHandle.new CounterSpec ("c")) ("") rfl rfl rfl rfl rfl rfl rfl
  exact ⟨rfl, rfl, h4.1, h4.2⟩

/-- Claim C5 (confirmed): `modify_store_uncommitted` applies the change
to the in-memory value only — by its very type it takes no world and
returns no error — keeps the storage and identifier, and a fresh manager
constructed afterwards over the same storage and identifier reads
exactly what it would have read before the uncommitted mutation. -/
theorem C5_uncommitted_never_reaches_disk {V : Type} (spec : StoringSpec V)
    (m : StoreManager V) (change : V → V) (w : World) (id : String) :
    (m.modify_store_uncommitted change).handle.store = change m.handle.store ∧
    (m.modify_store_uncommitted change).store = m.store ∧
    (m.modify_store_uncommitted change).handle.store_id = m.handle.store_id ∧
    StoreManager.new spec (m.modify_store_uncommitted change).store w id =
      StoreManager.new spec m.store w id :=
  ⟨rfl, rfl, rfl, rfl⟩

/-- Claim C6 (confirmed): `modify_store` is the uncommitted mutation
followed immediately by `save`; whatever `save` returns — error
included — the manager's in-memory value stays equal to the change
applied to the prior value, and its identifier is unchanged. -/
theorem C6_modify_mutation_not_rolled_back {V : Type} (spec : StoringSpec V)
    (m : StoreManager V) (w : World) (change : V → V) :
    StoreManager.modify_store spec m w change =
      StoreManager.save spec (m.modify_store_uncommitted change) w ∧
    ((StoreManager.modify_store spec m w change).2.1).handle.store = change m.handle.store ∧
    ((StoreManager.modify_store spec m w change).2.1).handle.store_id =
      m.handle.store_id := by
  refine ⟨rfl, ?_, ?_⟩
  · show ((StoreManager.save spec (m.modify_store_uncommitted change) w).2.1).handle.store =
      change m.handle.store
    rw [save_eq]
    rfl
  · show ((StoreManager.save spec (m.modify_store_uncommitted change) w).2.1).handle.store_id =
      m.handle.store_id
    rw [save_eq]
    rfl

/-- Claim C7 (confirmed): manager construction performs the initial read
and yields a manager exactly when that read succeeds; on a read failure
the error is propagated and no manager exists. -/
theorem C7_construction_iff_initial_read {V : Type} (spec : StoringSpec V)
    (storage : Storage) (w : World) (h : StoreHandle V) (id : String) :
    (StoreManager.from_handle spec storage w h =
      ((storage.read spec w h).1,
        match (storage.read spec w h).2.2 with
        | some e => .error e
        | none => .ok { store := storage, handle := (storage.read spec w h).2.1 })) ∧
    (StoreManager.new spec storage w id =
      StoreManager.from_handle spec storage w (StoreHandle.new spec id)) ∧
    ((∃ m, (StoreManager.from_handle spec storage w h).2 = .ok m) ↔
      (storage.read spec w h).2.2 = none) := by
  refine ⟨?_, rfl, ?_⟩
  · unfold StoreManager.from_handle
    cases hr : (storage.read spec w h).2.2 with
    | none => simp [hr]
    | some e => simp [hr]
  · unfold StoreManager.from_handle
    cases hr : (storage.read spec w h).2.2 with
    | none => simp [hr]
    | some e => simp [hr]

/-- Counterexample to claim C8: with the pairwise distinct roots
`/cache`, `/data`, `/config` and the two categories Data and Config, the
absolute identifier `/x` resolves to the same path under both
categories, because `PathBuf::push` replaces the whole path when given
an absolute path. -/
theorem C8_counterexample :
    exStorage.cache_dir ≠ exStorage.data_dir ∧
    exStorage.cache_dir ≠ exStorage.config_dir ∧
    exStorage.data_dir ≠ exStorage.config_dir ∧
    CounterSpec.store_type ≠ CounterConfigSpec.store_type ∧
    exStorage.file_path CounterSpec ("/x") = exStorage.file_path CounterConfigSpec ("/x") :=
  ⟨by decide, by decide, by decide, by decide, by decide⟩

/-- Claim C8 (amended): for a storage whose three roots are pairwise
distinct and for any relative (non-absolute) identifier, two value types
with different categories never resolve to the same file path. -/
theorem C8_category_isolation_for_relative_ids {V W : Type} (st : Storage)
    (sa : StoringSpec V) (sb : StoringSpec W) (id : String)
    (h1 : st.cache_dir ≠ st.data_dir) (h2 : st.cache_dir ≠ st.config_dir)
    (h3 : st.data_dir ≠ st.config_dir) (hc : sa.store_type ≠ sb.store_type)
    (hrel : isAbsolute id = false) :
    st.file_path sa id ≠ st.file_path sb id := by
  unfold Storage.file_path pushPath
  simp only [hrel, Bool.false_eq_true, if_false]
  intro heq
  have hroot : st.dir_path sa.store_type ++ "/" = st.dir_path sb.store_type ++ "/" :=
    string_append_right_cancel (by simpa [String.append_assoc] using heq)
  have hroot2 : st.dir_path sa.store_type = st.dir_path sb.store_type :=
    string_append_right_cancel hroot
  cases ha : sa.store_type <;> cases hb : sb.store_type <;>
    simp_all [Storage.dir_path]

/-- Witness for the amended C8: under distinct roots, the relative
identifier `c` resolves differently for Data and Config. -/
theorem C8_category_isolation_for_relative_ids_witness :
    exStorage.file_path CounterSpec ("c") ≠ exStorage.file_path CounterConfigSpec ("c") :=
  C8_category_isolation_for_relative_ids exStorage CounterSpec CounterConfigSpec ("c")
    (by decide) (by decide) (by decide) (by decide) (by decide)

/-- Counterexample to claim C9: construction does not validate the
identifier — `StoreHandle::new("")` yields a handle whose identifier is
the empty string, refuting unconditional non-emptiness. -/
theorem C9_counterexample :
    (StoreHandle.new CounterSpec ("")).store_id = ("") :=
  rfl

/-- Claim C9 (amended): the identifier of a handle equals the string
supplied at construction — hence it is non-empty exactly when that
string is — and no Storage or Manager operation ever changes it; only
the value component is updated. -/
theorem C9_identifier_stable {V : Type} (spec : StoringSpec V) (id : String) (st : Storage)
    (w : World) (h : StoreHandle V) (v : V) (m : StoreManager V) (change : V → V) :
    (StoreHandle.new spec id).store_id = id ∧
    (h.set_store v).store_id = h.store_id ∧
    ((st.read spec w h).2.1).store_id = h.store_id ∧
    ((st.write spec w h).2.1).store_id = h.store_id ∧
    ((StoreManager.save spec m w).2.1).handle.store_id = m.handle.store_id ∧
    ((StoreManager.modify_store spec m w change).2.1).handle.store_id =
      m.handle.store_id ∧
    (m.modify_store_uncommitted change).handle.store_id = m.handle.store_id ∧
    ((StoreManager.get_store_alive spec m w).2.1).handle.store_id = m.handle.store_id := by
  refine ⟨rfl, rfl, read_store_id st spec w h, by rw [write_handle_eq], ?_, ?_, rfl, ?_⟩
  · rw [save_eq]
  · show ((StoreManager.save spec (m.modify_store_uncommitted change) w).2.1).handle.store_id = _
    rw [save_eq]
    rfl
  · unfold StoreManager.get_store_alive
    exact read_store_id m.store spec w m.handle

end RustyStore
